import Mathlib

/-!
Shallow embedding of the fraud-detection predict-and-persist core:
`FraudsService` (src/api/services/frauds_service.py),
`FraudRepository` (src/lib/repositories/fraud_repository.py) and the
data model (src/lib/models/transaction_record_model.py).

Stateful pieces (the SQL store) are modelled by explicit state passing on
`StoreState`; Python exceptions are modelled with `Except`; pydantic field
values are modelled by the `Value` type (pandas' NaN marker included,
because `pd.DataFrame([d], columns=cols)` fills a column absent from `d`
with NaN rather than raising).  Timestamps are modelled as integers.
-/

namespace FraudDetection

/-- A scalar value as it appears in a pydantic `.dict()` / pandas cell.
`nan` is the missing-value marker pandas substitutes for a requested
column that is absent from the row dictionary. -/
inductive Value where
  | int : Int → Value
  | str : String → Value
  | float : Rat → Value
  | nan : Value
deriving DecidableEq, Repr

/-- `Transaction` (src/lib/models/transaction_record_model.py): the
pydantic schema for incoming/outgoing payloads; nine base fields,
no identity of its own.  Decimal fields are modelled as `Rat`. -/
structure Transaction where
  time_ind : Int
  transac_type : String
  amount : Rat
  src_acc : String
  src_bal : Rat
  src_new_bal : Rat
  dst_acc : String
  dst_bal : Rat
  dst_new_bal : Rat
deriving DecidableEq, Repr

/-- pydantic's `txn.dict()`: the ordered field-name-to-value dictionary of
a `Transaction`, in declaration order of the fields. -/
def Transaction.dict (t : Transaction) : List (String × Value) :=
  [ ("time_ind", Value.int t.time_ind)
  , ("transac_type", Value.str t.transac_type)
  , ("amount", Value.float t.amount)
  , ("src_acc", Value.str t.src_acc)
  , ("src_bal", Value.float t.src_bal)
  , ("src_new_bal", Value.float t.src_new_bal)
  , ("dst_acc", Value.str t.dst_acc)
  , ("dst_bal", Value.float t.dst_bal)
  , ("dst_new_bal", Value.float t.dst_new_bal) ]

/-- Direct by-name access to a `Transaction` field, independent of any
dictionary ordering: the named field's value, or `none` when the name is
not a field of `Transaction`. -/
def Transaction.fieldValue (t : Transaction) : String → Option Value
  | "time_ind" => some (Value.int t.time_ind)
  | "transac_type" => some (Value.str t.transac_type)
  | "amount" => some (Value.float t.amount)
  | "src_acc" => some (Value.str t.src_acc)
  | "src_bal" => some (Value.float t.src_bal)
  | "src_new_bal" => some (Value.float t.src_new_bal)
  | "dst_acc" => some (Value.str t.dst_acc)
  | "dst_bal" => some (Value.float t.dst_bal)
  | "dst_new_bal" => some (Value.float t.dst_new_bal)
  | _ => none

/-- `TransactionRecord` (table `predicted_transactions`): all base fields
plus the storage-assigned primary key `id`, the fraud flag, and the
server-generated `predicted_at` timestamp. -/
structure TransactionRecord where
  id : Int
  time_ind : Int
  transac_type : String
  amount : Rat
  src_acc : String
  src_bal : Rat
  src_new_bal : Rat
  dst_acc : String
  dst_bal : Rat
  dst_new_bal : Rat
  is_fraud : Bool
  predicted_at : Int
deriving DecidableEq, Repr

/-- A `TransactionRecord` as constructed at the single construction site
`TransactionRecord(**txn.dict(), is_fraud=predicted)` in
`FraudsService.predict`: the base fields plus the fraud flag, with `id`
and `predicted_at` left to the store (their pydantic defaults are `None`;
the database generates them on insert). -/
structure PendingRecord where
  time_ind : Int
  transac_type : String
  amount : Rat
  src_acc : String
  src_bal : Rat
  src_new_bal : Rat
  dst_acc : String
  dst_bal : Rat
  dst_new_bal : Rat
  is_fraud : Bool
deriving DecidableEq, Repr

/-- The state of the backing store behind `FraudRepository`: the table
rows in insertion order, the next serial primary key, and whether the
storage engine is reachable (an unreachable engine makes the insert raise,
which the repository surfaces rather than retries). -/
structure StoreState where
  rows : List TransactionRecord
  nextId : Int
  available : Bool
deriving DecidableEq, Repr

/-- A fresh store: empty table, serial ids starting at 1, storage up. -/
def emptyStore : StoreState :=
  { rows := [], nextId := 1, available := true }

/-- The exceptions that can escape the service layer: the model's own
exception propagating out of `model.predict` (payload carried unchanged),
the IndexError from `prediction_array[0]` on an empty prediction array,
and a storage failure out of `repo.add`. -/
inductive ServiceError where
  | modelRaised : String → ServiceError
  | emptyPrediction : ServiceError
  | storageUnavailable : ServiceError
deriving DecidableEq, Repr

/-- The spec's `InferenceFailure` class: the inference step failed, either
because the underlying model raised or because it returned an unexpected
shape (an empty result). -/
def ServiceError.isInferenceFailure : ServiceError → Bool
  | ServiceError.modelRaised _ => true
  | ServiceError.emptyPrediction => true
  | ServiceError.storageUnavailable => false

/-- The single data row of `pd.DataFrame([d], columns=cols)`: each
requested column in order, taken from `d` by name; a column absent from
`d` is filled with the NaN marker (pandas raises nothing here). -/
def projectRow (d : List (String × Value)) (cols : List String) : List Value :=
  cols.map (fun c => (d.lookup c).getD Value.nan)

/-- The model handed to the service: `model.predict(df)` on a one-row
frame, returning the prediction array, or raising (modelled by `.error`
carrying the exception's message). -/
abbrev ModelFn := List Value → Except String (List Bool)

/-- `FraudRepository.add`: insert the record, commit, refresh it with the
generated fields (`id`, `predicted_at`) and return it together with the
new store state.  If storage is unreachable the insert raises and nothing
is committed. -/
def FraudRepository.add (st : StoreState) (now : Int) (record : PendingRecord) :
    Except ServiceError (TransactionRecord × StoreState) :=
  if st.available then
    let inserted : TransactionRecord :=
      { id := st.nextId
      , time_ind := record.time_ind
      , transac_type := record.transac_type
      , amount := record.amount
      , src_acc := record.src_acc
      , src_bal := record.src_bal
      , src_new_bal := record.src_new_bal
      , dst_acc := record.dst_acc
      , dst_bal := record.dst_bal
      , dst_new_bal := record.dst_new_bal
      , is_fraud := record.is_fraud
      , predicted_at := now }
    Except.ok (inserted, { st with rows := st.rows ++ [inserted], nextId := st.nextId + 1 })
  else
    Except.error ServiceError.storageUnavailable

/-- The ordering used by `ORDER BY predicted_at DESC`. -/
def byTimeDesc (a b : TransactionRecord) : Prop :=
  b.predicted_at ≤ a.predicted_at

instance : DecidableRel byTimeDesc :=
  fun a b => inferInstanceAs (Decidable (b.predicted_at ≤ a.predicted_at))

/-- `FraudRepository.list_all`: every row of `predicted_transactions`,
ordered by `predicted_at` descending (ties in unspecified but
deterministic-within-a-call order). -/
def FraudRepository.list_all (st : StoreState) : List TransactionRecord :=
  List.insertionSort byTimeDesc st.rows

/-- `TransactionAPIResponse` (src/lib/models/api_model.py): the original
transaction paired with the model-predicted fraud flag. -/
structure TransactionAPIResponse where
  transaction : Transaction
  predicted_fraud : Bool
deriving DecidableEq, Repr

/-- `FraudsService.predict`: build the one-row frame over the configured
feature columns, run the model, coerce the first array entry to the fraud
flag, persist via the repository, and answer with the original
transaction plus the flag.  Returns the response (or the propagated
exception) together with the resulting store state. -/
def FraudsService.predict (model : ModelFn) (feature_cols : List String)
    (now : Int) (txn : Transaction) (st : StoreState) :
    Except ServiceError TransactionAPIResponse × StoreState :=
  let df := projectRow txn.dict feature_cols
  match model df with
  | Except.error e => (Except.error (ServiceError.modelRaised e), st)
  | Except.ok prediction_array =>
    match prediction_array with
    | [] => (Except.error ServiceError.emptyPrediction, st)
    | p0 :: _ =>
      let predicted := p0
      let db_rec : PendingRecord :=
        { time_ind := txn.time_ind
        , transac_type := txn.transac_type
        , amount := txn.amount
        , src_acc := txn.src_acc
        , src_bal := txn.src_bal
        , src_new_bal := txn.src_new_bal
        , dst_acc := txn.dst_acc
        , dst_bal := txn.dst_bal
        , dst_new_bal := txn.dst_new_bal
        , is_fraud := predicted }
      match FraudRepository.add st now db_rec with
      | Except.error e => (Except.error e, st)
      | Except.ok (_, st2) =>
        (Except.ok { transaction := txn, predicted_fraud := predicted }, st2)

/-- `Transaction.from_orm(rec)`: rebuild the transaction view from a
stored record (base fields only). -/
def Transaction.from_orm (r : TransactionRecord) : Transaction :=
  { time_ind := r.time_ind
  , transac_type := r.transac_type
  , amount := r.amount
  , src_acc := r.src_acc
  , src_bal := r.src_bal
  , src_new_bal := r.src_new_bal
  , dst_acc := r.dst_acc
  , dst_bal := r.dst_bal
  , dst_new_bal := r.dst_new_bal }

/-- The response object `get_frauds` builds for one stored record. -/
def recResponse (r : TransactionRecord) : TransactionAPIResponse :=
  { transaction := Transaction.from_orm r, predicted_fraud := r.is_fraud }

/-- One `result[rec.id] = response` step on a CPython dict, modelled as an
insertion-ordered association list: an existing key keeps its position
and gets the new value, a new key is appended at the end. -/
def dictInsert (k : Int) (v : TransactionAPIResponse)
    (d : List (Int × TransactionAPIResponse)) : List (Int × TransactionAPIResponse) :=
  if d.any (fun p => p.1 == k) then
    d.map (fun p => if p.1 == k then (k, v) else p)
  else
    d ++ [(k, v)]

/-- `FraudsService.get_frauds`: fetch all rows newest first, reshape each
into a response object, and key the results by record id in an
insertion-ordered dict.  The store state is returned unchanged: retrieval
performs no write. -/
def FraudsService.get_frauds (st : StoreState) :
    List (Int × TransactionAPIResponse) × StoreState :=
  let db_rows := FraudRepository.list_all st
  (db_rows.foldl (fun result r => dictInsert r.id (recResponse r) result) [], st)

/-- A sequence of `predict` calls, each with its own transaction and
server clock reading, threaded through the store state. -/
def runPredicts (model : ModelFn) (feature_cols : List String) :
    List (Transaction × Int) → StoreState → StoreState
  | [], st => st
  | (txn, now) :: rest, st =>
      runPredicts model feature_cols rest
        (FraudsService.predict model feature_cols now txn st).2

/-- Every call in the sequence returns a response (none raises). -/
def allSucceed (model : ModelFn) (feature_cols : List String) :
    List (Transaction × Int) → StoreState → Bool
  | [], _ => true
  | (txn, now) :: rest, st =>
      match FraudsService.predict model feature_cols now txn st with
      | (Except.ok _, st2) => allSucceed model feature_cols rest st2
      | (Except.error _, _) => false

/-- The row the store commits for a pending record: the pending fields
plus the generated serial `id` and the server clock `predicted_at`. -/
def insertedRecord (st : StoreState) (now : Int) (p : PendingRecord) : TransactionRecord :=
  { id := st.nextId
  , time_ind := p.time_ind
  , transac_type := p.transac_type
  , amount := p.amount
  , src_acc := p.src_acc
  , src_bal := p.src_bal
  , src_new_bal := p.src_new_bal
  , dst_acc := p.dst_acc
  , dst_bal := p.dst_bal
  , dst_new_bal := p.dst_new_bal
  , is_fraud := p.is_fraud
  , predicted_at := now }

/-- `TransactionRecord(**txn.dict(), is_fraud=predicted)` as a pending
record. -/
def pendingOf (txn : Transaction) (fraud : Bool) : PendingRecord :=
  { time_ind := txn.time_ind
  , transac_type := txn.transac_type
  , amount := txn.amount
  , src_acc := txn.src_acc
  , src_bal := txn.src_bal
  , src_new_bal := txn.src_new_bal
  , dst_acc := txn.dst_acc
  , dst_bal := txn.dst_bal
  , dst_new_bal := txn.dst_new_bal
  , is_fraud := fraud }

/-- The primary-key invariant the storage engine maintains: row ids are
pairwise distinct and below the next serial value. -/
def goodIds (st : StoreState) : Prop :=
  (st.rows.map (fun r => r.id)).Nodup ∧ ∀ r ∈ st.rows, r.id < st.nextId

/-- A concrete transaction used to instantiate the general theorems. -/
def txn0 : Transaction :=
  { time_ind := 42, transac_type := "TRANSFER", amount := 1000
  , src_acc := "acc123", src_bal := 5000, src_new_bal := 4000
  , dst_acc := "acc456", dst_bal := 1000, dst_new_bal := 2000 }

/-- A deterministic model that always answers "not fraud". -/
def model0 : ModelFn := fun _ => Except.ok [false]

/-- A model whose underlying call raises. -/
def modelFail : ModelFn := fun _ => Except.error "boom"

/-- A model that returns an empty prediction array. -/
def modelEmpty : ModelFn := fun _ => Except.ok []

/-- A concrete stored record with `predicted_at` 1. -/
def recA : TransactionRecord :=
  { id := 1, time_ind := 1, transac_type := "PAYMENT", amount := 1
  , src_acc := "a", src_bal := 1, src_new_bal := 0
  , dst_acc := "b", dst_bal := 0, dst_new_bal := 1
  , is_fraud := false, predicted_at := 1 }

/-- A concrete stored record with `predicted_at` 2. -/
def recB : TransactionRecord := { recA with id := 2, predicted_at := 2 }

/-- A concrete stored record with `predicted_at` 3. -/
def recC : TransactionRecord := { recA with id := 3, predicted_at := 3 }

/-- A store holding `recA`, `recB`, `recC`, inserted in that order. -/
def stABC : StoreState := { rows := [recA, recB, recC], nextId := 4, available := true }

/-- A store whose storage engine is down. -/
def downStore : StoreState := { rows := [], nextId := 1, available := false }

lemma add_eq (st : StoreState) (now : Int) (p : PendingRecord) :
    FraudRepository.add st now p =
      if st.available then
        Except.ok (insertedRecord st now p,
          { st with rows := st.rows ++ [insertedRecord st now p], nextId := st.nextId + 1 })
      else Except.error ServiceError.storageUnavailable := rfl

lemma predict_eq (model : ModelFn) (cols : List String) (now : Int)
    (txn : Transaction) (st : StoreState) :
    FraudsService.predict model cols now txn st =
      match model (projectRow txn.dict cols) with
      | Except.error e => (Except.error (ServiceError.modelRaised e), st)
      | Except.ok [] => (Except.error ServiceError.emptyPrediction, st)
      | Except.ok (p :: _) =>
        if st.available then
          (Except.ok { transaction := txn, predicted_fraud := p },
           { st with rows := st.rows ++ [insertedRecord st now (pendingOf txn p)]
                   , nextId := st.nextId + 1 })
        else (Except.error ServiceError.storageUnavailable, st) := by
  cases hm : model (projectRow txn.dict cols) with
  | error e => simp [FraudsService.predict, hm]
  | ok arr =>
    cases arr with
    | nil => simp [FraudsService.predict, hm]
    | cons p rest =>
      by_cases hav : st.available
      · simp [FraudsService.predict, hm, add_eq, hav, insertedRecord, pendingOf]
      · simp [FraudsService.predict, hm, add_eq, hav]

lemma dict_lookup (t : Transaction) (c : String) : t.dict.lookup c = t.fieldValue c := by
  unfold Transaction.fieldValue
  split <;> try (subst_vars; rfl)
  next h1 h2 h3 h4 h5 h6 h7 h8 h9 =>
  simp [Transaction.dict, List.lookup,
    beq_eq_false_iff_ne.mpr h1, beq_eq_false_iff_ne.mpr h2, beq_eq_false_iff_ne.mpr h3,
    beq_eq_false_iff_ne.mpr h4, beq_eq_false_iff_ne.mpr h5, beq_eq_false_iff_ne.mpr h6,
    beq_eq_false_iff_ne.mpr h7, beq_eq_false_iff_ne.mpr h8, beq_eq_false_iff_ne.mpr h9]

lemma lookup_eq_of_perm {l1 l2 : List (String × Value)} (hp : l1.Perm l2) :
    ∀ c : String, (l2.map Prod.fst).Nodup → l1.lookup c = l2.lookup c := by
  induction hp with
  | nil => intro c _; rfl
  | cons x hpt ih =>
    intro c hnd
    obtain ⟨k, v⟩ := x
    have hnd2 := (List.nodup_cons.mp hnd).2
    cases hx : c == k with
    | true => simp [List.lookup, hx]
    | false =>
      simp [List.lookup, hx]
      exact ih c hnd2
  | swap x y t =>
    intro c hnd
    obtain ⟨k1, v1⟩ := x
    obtain ⟨k2, v2⟩ := y
    have hh := List.nodup_cons.mp hnd
    have hne : k1 ≠ k2 := fun h => hh.1 (by simp [h])
    cases hx1 : c == k1 with
    | true =>
      have hc1 : c = k1 := by simpa using hx1
      have hx2 : (c == k2) = false := beq_eq_false_iff_ne.mpr (hc1 ▸ hne)
      simp [List.lookup, hx1, hx2]
    | false =>
      cases hx2 : c == k2 with
      | true => simp [List.lookup, hx1, hx2]
      | false => simp [List.lookup, hx1, hx2]
  | trans h12 h23 ih1 ih2 =>
    intro c hnd
    exact (ih1 c (((h23.map Prod.fst).nodup_iff).mpr hnd)).trans (ih2 c hnd)

lemma dict_keys_nodup (t : Transaction) : ((t.dict).map Prod.fst).Nodup := by
  simp [Transaction.dict]

instance : IsTotal TransactionRecord byTimeDesc :=
  ⟨fun a b => le_total b.predicted_at a.predicted_at⟩

instance : IsTrans TransactionRecord byTimeDesc :=
  ⟨fun _ _ _ hab hbc => le_trans hbc hab⟩

lemma listAll_perm (st : StoreState) : (FraudRepository.list_all st).Perm st.rows :=
  List.perm_insertionSort byTimeDesc st.rows

lemma listAll_sorted (st : StoreState) :
    List.Sorted byTimeDesc (FraudRepository.list_all st) :=
  List.sorted_insertionSort byTimeDesc st.rows


lemma foldl_dictInsert_eq_append :
    ∀ (l : List TransactionRecord) (acc : List (Int × TransactionAPIResponse)),
    (l.map (fun r => r.id)).Nodup →
    (∀ r ∈ l, ∀ p ∈ acc, p.1 ≠ r.id) →
    l.foldl (fun d r => dictInsert r.id (recResponse r) d) acc
      = acc ++ l.map (fun r => (r.id, recResponse r)) := by
  intro l
  induction l with
  | nil => intro acc _ _; simp
  | cons r rest ih =>
    intro acc hnd hdisj
    have hnd2 := (List.nodup_cons.mp hnd).2
    have hhead : r.id ∉ rest.map (fun r2 => r2.id) := (List.nodup_cons.mp hnd).1
    have hany : (acc.any (fun p => p.1 == r.id)) = false := by
      rw [List.any_eq_false]
      intro p hp
      simpa using hdisj r (by simp) p hp
    have hstep : dictInsert r.id (recResponse r) acc = acc ++ [(r.id, recResponse r)] := by
      simp [dictInsert, hany]
    have hdisj2 : ∀ r2 ∈ rest, ∀ p ∈ acc ++ [(r.id, recResponse r)], p.1 ≠ r2.id := by
      intro r2 hr2 p hp
      rcases List.mem_append.mp hp with hpa | hpb
      · exact hdisj r2 (List.mem_cons_of_mem _ hr2) p hpa
      · have hpe : p = (r.id, recResponse r) := by simpa using hpb
        subst hpe
        intro h
        simp only at h
        apply hhead
        rw [h]
        exact List.mem_map_of_mem _ hr2
    rw [List.foldl_cons, hstep, ih (acc ++ [(r.id, recResponse r)]) hnd2 hdisj2]
    simp

lemma get_frauds_eq_map (st : StoreState)
    (h : (st.rows.map (fun r => r.id)).Nodup) :
    (FraudsService.get_frauds st).1
      = (FraudRepository.list_all st).map (fun r => (r.id, recResponse r)) := by
  have hnd : ((FraudRepository.list_all st).map (fun r => r.id)).Nodup :=
    (((listAll_perm st).map (fun r => r.id)).nodup_iff).mpr h
  have hfold := foldl_dictInsert_eq_append (FraudRepository.list_all st) [] hnd (by simp)
  simpa [FraudsService.get_frauds] using hfold

lemma goodIds_insert (st : StoreState) (now : Int) (p : PendingRecord) (hg : goodIds st) :
    goodIds { st with rows := st.rows ++ [insertedRecord st now p], nextId := st.nextId + 1 } := by
  obtain ⟨hnd, hlt⟩ := hg
  constructor
  · simp only [List.map_append]
    rw [List.nodup_append]
    refine ⟨hnd, by simp, ?_⟩
    intro x hx hx2
    simp [insertedRecord] at hx2
    obtain ⟨r, hr, hrid⟩ := List.mem_map.mp hx
    have := hlt r hr
    omega
  · intro r hr
    rcases List.mem_append.mp hr with h1 | h2
    · have := hlt r h1
      show r.id < st.nextId + 1
      omega
    · simp at h2
      subst h2
      show (insertedRecord st now p).id < st.nextId + 1
      simp [insertedRecord]

lemma predict_error_state (model : ModelFn) (cols : List String) (now : Int)
    (txn : Transaction) (st : StoreState) (e : ServiceError)
    (h : (FraudsService.predict model cols now txn st).1 = Except.error e) :
    (FraudsService.predict model cols now txn st).2 = st := by
  rw [predict_eq] at h ⊢
  cases hm : model (projectRow txn.dict cols) with
  | error e2 => simp [hm]
  | ok arr =>
    cases arr with
    | nil => simp [hm]
    | cons p rest =>
      by_cases hav : st.available
      · simp [hm, hav] at h
      · simp [hm, hav]

lemma predict_ok_dest (model : ModelFn) (cols : List String) (now : Int)
    (txn : Transaction) (st : StoreState) (resp : TransactionAPIResponse)
    (h : (FraudsService.predict model cols now txn st).1 = Except.ok resp) :
    resp.transaction = txn ∧ st.available = true ∧
    (∃ rest, model (projectRow txn.dict cols) = Except.ok (resp.predicted_fraud :: rest)) ∧
    (FraudsService.predict model cols now txn st).2
      = { st with rows := st.rows ++ [insertedRecord st now (pendingOf txn resp.predicted_fraud)]
                , nextId := st.nextId + 1 } := by
  cases hm : model (projectRow txn.dict cols) with
  | error e =>
    rw [predict_eq] at h
    simp [hm] at h
  | ok arr =>
    cases arr with
    | nil =>
      rw [predict_eq] at h
      simp [hm] at h
    | cons p rest =>
      by_cases hav : st.available
      · have h2 : ({ transaction := txn, predicted_fraud := p } : TransactionAPIResponse) = resp := by
          rw [predict_eq] at h
          simp [hm, hav] at h
          exact h
        subst h2
        refine ⟨rfl, hav, ⟨rest, rfl⟩, ?_⟩
        rw [predict_eq]
        simp [hm, hav]
      · rw [predict_eq] at h
        simp [hm, hav] at h


lemma runPredicts_spec (model : ModelFn) (cols : List String) :
    ∀ (calls : List (Transaction × Int)) (st : StoreState),
    allSucceed model cols calls st = true → goodIds st →
    goodIds (runPredicts model cols calls st) ∧
    (runPredicts model cols calls st).rows.length = st.rows.length + calls.length := by
  intro calls
  induction calls with
  | nil =>
    intro st _ hg
    exact ⟨hg, by simp [runPredicts]⟩
  | cons c rest ih =>
    intro st hs hg
    obtain ⟨txn, now⟩ := c
    simp only [runPredicts]
    simp only [allSucceed] at hs
    cases hp : FraudsService.predict model cols now txn st with
    | mk res st2 =>
      rw [hp] at hs
      cases res with
      | error e => exact Bool.noConfusion hs
      | ok resp =>
        have hs2 : allSucceed model cols rest st2 = true := hs
        have hok : (FraudsService.predict model cols now txn st).1 = Except.ok resp := by
          rw [hp]
        obtain ⟨_, _, _, hstate⟩ := predict_ok_dest model cols now txn st resp hok
        have hst2 : st2 = { st with
            rows := st.rows ++ [insertedRecord st now (pendingOf txn resp.predicted_fraud)]
          , nextId := st.nextId + 1 } := by
          rw [← hstate, hp]
        subst hst2
        have hg2 := goodIds_insert st now (pendingOf txn resp.predicted_fraud) hg
        obtain ⟨hgood2, hlen2⟩ := ih _ hs2 hg2
        refine ⟨hgood2, ?_⟩
        rw [hlen2]
        simp
        omega

/-- Claim C1: a successful `predict` appends exactly one new record to the
store, the record's non-generated fields equal the transaction's fields,
and the call returns the original transaction paired with the label the
model produced. -/
theorem predict_persists_one_record (model : ModelFn) (cols : List String)
    (now : Int) (txn : Transaction) (st : StoreState) (resp : TransactionAPIResponse)
    (h : (FraudsService.predict model cols now txn st).1 = Except.ok resp) :
    (∃ r : TransactionRecord,
      (FraudsService.predict model cols now txn st).2.rows = st.rows ++ [r] ∧
      Transaction.from_orm r = txn ∧ r.is_fraud = resp.predicted_fraud) ∧
    resp.transaction = txn ∧
    (∃ tail, model (projectRow txn.dict cols) = Except.ok (resp.predicted_fraud :: tail)) := by
  obtain ⟨htxn, hav, hmodel, hstate⟩ := predict_ok_dest model cols now txn st resp h
  refine ⟨⟨insertedRecord st now (pendingOf txn resp.predicted_fraud), ?_, rfl, rfl⟩,
    htxn, hmodel⟩
  rw [hstate]

/-- Claim C1 witness: a deterministic always-false model on a concrete
transaction. -/
theorem predict_persists_one_record_witness :
    ∃ r : TransactionRecord,
      (FraudsService.predict model0 ["amount"] 7 txn0 emptyStore).2.rows
        = emptyStore.rows ++ [r] ∧
      Transaction.from_orm r = txn0 ∧ r.is_fraud = false :=
  (predict_persists_one_record model0 ["amount"] 7 txn0 emptyStore
    { transaction := txn0, predicted_fraud := false } rfl).1


/-- Claim C2 counterexample: with a requested column that is not a field
of the transaction, feature projection does not fail — it silently fills
the column with the NaN marker — and `predict` completes successfully; no
`SchemaMismatch` is signalled. -/
theorem schema_mismatch_counterexample :
    txn0.fieldValue "not_a_column" = none ∧
    projectRow txn0.dict ["not_a_column"] = [Value.nan] ∧
    (FraudsService.predict model0 ["not_a_column"] 0 txn0 emptyStore).1
      = Except.ok { transaction := txn0, predicted_fraud := false } :=
  ⟨rfl, rfl, rfl⟩

/-- Claim C2 (amended): a requested feature column absent from the
transaction's field set is filled with pandas' NaN missing-value marker at
its position in the row, and `predict` proceeds without error. -/
theorem projectRow_missing_column_nan (txn : Transaction) (cols : List String)
    (i : Nat) (hi : i < cols.length)
    (hmiss : txn.fieldValue (cols.get ⟨i, hi⟩) = none) :
    (projectRow txn.dict cols)[i]? = some Value.nan ∧
    ∀ (model : ModelFn) (now : Int) (st : StoreState) (p : Bool) (tail : List Bool),
      st.available = true → model (projectRow txn.dict cols) = Except.ok (p :: tail) →
      (FraudsService.predict model cols now txn st).1
        = Except.ok { transaction := txn, predicted_fraud := p } := by
  constructor
  · rw [projectRow, List.getElem?_map, List.getElem?_eq_getElem hi]
    have hm2 : txn.dict.lookup (cols.get ⟨i, hi⟩) = none := by
      rw [dict_lookup]
      exact hmiss
    simp only [List.get_eq_getElem] at hm2
    simp [hm2]
  · intro model now st p tail hav hm
    rw [predict_eq]
    simp [hm, hav]

/-- Claim C2 amended witness: concrete missing column. -/
theorem projectRow_missing_column_nan_witness :
    (projectRow txn0.dict ["not_a_column"])[0]? = some Value.nan :=
  (projectRow_missing_column_nan txn0 ["not_a_column"] 0 (by decide) rfl).1

/-- Claim C3: `list_all` returns every persisted record sorted by
`predicted_at` descending; three records inserted at increasing times come
back in reverse insertion order. -/
theorem list_all_newest_first (st : StoreState) :
    (FraudRepository.list_all st).Perm st.rows ∧
    List.Sorted byTimeDesc (FraudRepository.list_all st) ∧
    (∀ r1 r2 r3 : TransactionRecord, st.rows = [r1, r2, r3] →
      r1.predicted_at < r2.predicted_at → r2.predicted_at < r3.predicted_at →
      FraudRepository.list_all st = [r3, r2, r1]) := by
  refine ⟨listAll_perm st, listAll_sorted st, ?_⟩
  intro r1 r2 r3 hrows h12 h23
  have h13 : r1.predicted_at < r3.predicted_at := lt_trans h12 h23
  unfold FraudRepository.list_all
  rw [hrows]
  simp [List.insertionSort, List.orderedInsert, byTimeDesc,
    not_le.mpr h12, not_le.mpr h23, not_le.mpr h13]

/-- Claim C3 witness: three concrete records at times 1 < 2 < 3. -/
theorem list_all_newest_first_witness :
    FraudRepository.list_all stABC = [recC, recB, recA] :=
  (list_all_newest_first stABC).2.2 recA recB recC rfl (by decide) (by decide)

/-- Claim C4: `predict` is all-or-nothing — on any failure the store is
untouched and no partial result is returned; a model exception propagates
with its payload unchanged; a storage failure propagates as such. -/
theorem predict_all_or_nothing (model : ModelFn) (cols : List String)
    (now : Int) (txn : Transaction) (st : StoreState) :
    (∀ e, (FraudsService.predict model cols now txn st).1 = Except.error e →
      (FraudsService.predict model cols now txn st).2 = st) ∧
    (∀ e, model (projectRow txn.dict cols) = Except.error e →
      (FraudsService.predict model cols now txn st).1
        = Except.error (ServiceError.modelRaised e)) ∧
    (st.available = false → ∀ p tail,
      model (projectRow txn.dict cols) = Except.ok (p :: tail) →
      (FraudsService.predict model cols now txn st).1
        = Except.error ServiceError.storageUnavailable) := by
  refine ⟨fun e h => predict_error_state model cols now txn st e h, ?_, ?_⟩
  · intro e hm
    rw [predict_eq]
    simp [hm]
  · intro hav p tail hm
    rw [predict_eq]
    simp [hm, hav]

/-- Claim C4 witness: a raising model leaves the empty store empty. -/
theorem predict_all_or_nothing_witness :
    (FraudsService.predict modelFail ["amount"] 0 txn0 emptyStore).1
      = Except.error (ServiceError.modelRaised "boom") ∧
    (FraudsService.predict modelFail ["amount"] 0 txn0 emptyStore).2 = emptyStore := by
  have h := predict_all_or_nothing modelFail ["amount"] 0 txn0 emptyStore
  exact ⟨h.2.1 "boom" rfl, h.1 (ServiceError.modelRaised "boom") (h.2.1 "boom" rfl)⟩

/-- Claim C5: on a successful insert the store assigns `id` and
`predicted_at` (the client-visible pending record has no such fields),
and both are visible on the returned record, which is in the store
(read-your-write). -/
theorem add_populates_generated_fields (st : StoreState) (now : Int) (p : PendingRecord)
    (h : st.available = true) :
    ∃ (r : TransactionRecord) (st2 : StoreState),
      FraudRepository.add st now p = Except.ok (r, st2) ∧
      r.id = st.nextId ∧ r.predicted_at = now ∧
      st2.rows = st.rows ++ [r] ∧ r ∈ st2.rows := by
  refine ⟨insertedRecord st now p,
    { st with rows := st.rows ++ [insertedRecord st now p], nextId := st.nextId + 1 },
    ?_, rfl, rfl, rfl, ?_⟩
  · rw [add_eq, if_pos h]
  · exact List.mem_append_right _ (by simp)

/-- Claim C5 witness: a concrete insert into the empty store. -/
theorem add_populates_generated_fields_witness :
    ∃ (r : TransactionRecord) (st2 : StoreState),
      FraudRepository.add emptyStore 5 (pendingOf txn0 true) = Except.ok (r, st2) ∧
      r.id = emptyStore.nextId ∧ r.predicted_at = 5 ∧
      st2.rows = emptyStore.rows ++ [r] ∧ r ∈ st2.rows :=
  add_populates_generated_fields emptyStore 5 (pendingOf txn0 true) rfl


/-- Claim C6: after N successful `predict` calls from the empty store,
`list_predictions` returns exactly N entries, keyed by pairwise distinct
record ids. -/
theorem predicts_then_list_count (model : ModelFn) (cols : List String)
    (calls : List (Transaction × Int))
    (h : allSucceed model cols calls emptyStore = true) :
    ((FraudsService.get_frauds (runPredicts model cols calls emptyStore)).1).length
      = calls.length ∧
    (((FraudsService.get_frauds (runPredicts model cols calls emptyStore)).1).map
      (fun p => p.1)).Nodup := by
  have hg0 : goodIds emptyStore := ⟨by simp [emptyStore], by simp [emptyStore]⟩
  obtain ⟨hgood, hlen⟩ := runPredicts_spec model cols calls emptyStore h hg0
  have hmap := get_frauds_eq_map (runPredicts model cols calls emptyStore) hgood.1
  rw [hmap]
  constructor
  · rw [List.length_map, (listAll_perm _).length_eq, hlen]
    simp [emptyStore]
  · rw [List.map_map]
    have hnd : ((FraudRepository.list_all (runPredicts model cols calls emptyStore)).map
        (fun r => r.id)).Nodup :=
      (((listAll_perm _).map (fun r => r.id)).nodup_iff).mpr hgood.1
    simpa [Function.comp] using hnd

/-- Claim C6 witness: two concrete calls from the empty store. -/
theorem predicts_then_list_count_witness :
    allSucceed model0 ["amount"] [(txn0, 1), (txn0, 5)] emptyStore = true ∧
    ((FraudsService.get_frauds
      (runPredicts model0 ["amount"] [(txn0, 1), (txn0, 5)] emptyStore)).1).length = 2 :=
  ⟨rfl, (predicts_then_list_count model0 ["amount"] [(txn0, 1), (txn0, 5)] rfl).1⟩

/-- Claim C7: if the model raises or returns an empty prediction array,
the inference step fails with an inference-failure error that propagates
to the caller (not retried within the call), and no label is produced —
the store is untouched and no response is returned. -/
theorem inference_failure_fatal (model : ModelFn) (cols : List String)
    (now : Int) (txn : Transaction) (st : StoreState) :
    (∀ e, model (projectRow txn.dict cols) = Except.error e →
      (FraudsService.predict model cols now txn st).1
        = Except.error (ServiceError.modelRaised e) ∧
      (ServiceError.modelRaised e).isInferenceFailure = true ∧
      (FraudsService.predict model cols now txn st).2 = st) ∧
    (model (projectRow txn.dict cols) = Except.ok [] →
      (FraudsService.predict model cols now txn st).1
        = Except.error ServiceError.emptyPrediction ∧
      ServiceError.emptyPrediction.isInferenceFailure = true ∧
      (FraudsService.predict model cols now txn st).2 = st) := by
  constructor
  · intro e hm
    refine ⟨?_, rfl, ?_⟩ <;> (rw [predict_eq]; simp [hm])
  · intro hm
    refine ⟨?_, rfl, ?_⟩ <;> (rw [predict_eq]; simp [hm])

/-- Claim C7 witness: a model returning an empty array. -/
theorem inference_failure_fatal_witness :
    (FraudsService.predict modelEmpty ["amount"] 0 txn0 emptyStore).1
      = Except.error ServiceError.emptyPrediction ∧
    ServiceError.emptyPrediction.isInferenceFailure = true ∧
    (FraudsService.predict modelEmpty ["amount"] 0 txn0 emptyStore).2 = emptyStore :=
  (inference_failure_fatal modelEmpty ["amount"] 0 txn0 emptyStore).2 rfl

/-- Claim C8: the projected row has one value per requested column, each
value is the transaction's field of that name, and the projection depends
only on the field-name-to-value mapping, not on the ordering of the
transaction's field dictionary. -/
theorem projectRow_selects_by_name (txn : Transaction) (cols : List String) :
    (projectRow txn.dict cols).length = cols.length ∧
    (∀ (i : Nat) (hi : i < cols.length) (v : Value),
      txn.fieldValue (cols.get ⟨i, hi⟩) = some v →
      (projectRow txn.dict cols)[i]? = some v) ∧
    (∀ d : List (String × Value), d.Perm txn.dict →
      projectRow d cols = projectRow txn.dict cols) := by
  refine ⟨by simp [projectRow], ?_, ?_⟩
  · intro i hi v hv
    rw [projectRow, List.getElem?_map, List.getElem?_eq_getElem hi]
    have hv2 : txn.dict.lookup (cols.get ⟨i, hi⟩) = some v := by
      rw [dict_lookup]
      exact hv
    simp only [List.get_eq_getElem] at hv2
    simp [hv2]
  · intro d hd
    unfold projectRow
    apply List.map_congr_left
    intro c _
    rw [lookup_eq_of_perm hd c (dict_keys_nodup txn)]

/-- Claim C8 witness: select a field and permute the dictionary. -/
theorem projectRow_selects_by_name_witness :
    (projectRow txn0.dict ["amount", "time_ind"])[0]? = some (Value.float 1000) ∧
    projectRow (txn0.dict.reverse) ["amount"] = projectRow txn0.dict ["amount"] :=
  ⟨(projectRow_selects_by_name txn0 ["amount", "time_ind"]).2.1 0 (by decide)
      (Value.float 1000) (by decide),
   (projectRow_selects_by_name txn0 ["amount"]).2.2 (txn0.dict.reverse)
      (List.reverse_perm txn0.dict)⟩

/-- Claim C9: retrieval is idempotent — a second `list_predictions` with
no intervening write returns the same entries, and retrieval leaves the
store state unchanged. -/
theorem list_predictions_idempotent (st : StoreState) :
    (FraudsService.get_frauds ((FraudsService.get_frauds st).2)).1
      = (FraudsService.get_frauds st).1 ∧
    (FraudsService.get_frauds ((FraudsService.get_frauds st).2)).2 = st :=
  ⟨rfl, rfl⟩

/-- Claim C10: with distinct ids (the primary-key invariant), the
id-keyed mapping `get_frauds` builds enumerates its entries in exactly
the order `list_all` returns the records, which is `predicted_at`
descending — newest-first survives the conversion to a mapping. -/
theorem get_frauds_preserves_order (st : StoreState)
    (h : (st.rows.map (fun r => r.id)).Nodup) :
    (FraudsService.get_frauds st).1
      = (FraudRepository.list_all st).map (fun r => (r.id, recResponse r)) ∧
    List.Sorted byTimeDesc (FraudRepository.list_all st) :=
  ⟨get_frauds_eq_map st h, listAll_sorted st⟩

/-- Claim C10 witness: the three-record store enumerates newest first. -/
theorem get_frauds_preserves_order_witness :
    (FraudsService.get_frauds stABC).1
      = [(recC.id, recResponse recC), (recB.id, recResponse recB),
         (recA.id, recResponse recA)] := by
  have h := (get_frauds_preserves_order stABC (by decide)).1
  rw [h]
  rfl

end FraudDetection
